import Mathlib

/-!
Verification development for `linkedin_scraper.py` (aeroleads_assignment).

The Python source is shallowly embedded:

* BeautifulSoup probing is abstracted into a `Soup` structure holding, for each
  fixed selector the parser queries, the result of the probe: `none` when no element
  matches, `some contents` when one does, where `contents` is the list of
  text nodes of the element in document order.  Python truthiness of a found tag
  (`if full_name_tag:`) is `tagTruthy`: a bs4 `Tag` defines `__len__` as the
  number of its contents and no `__bool__`, so a found tag with empty contents
  is falsy.
* `get_text sep contents` models the bs4 method `Tag.get_text(sep, strip=True)`:
  each text node is stripped, whitespace-only nodes are dropped, the rest are
  joined with `sep`.
* Randomness (`random.uniform`) and navigation outcomes (`driver.get`
  succeeding or raising) are oracles passed in as functions; sleeping and
  navigation are recorded in an event trace.
* File/driver side effects in `scrape_public_profiles` are modelled by a
  state-plus-exceptions monad whose state counts `driver.quit()` calls.
-/

/-- Python `str.strip()` with no argument: drop leading and trailing
whitespace.  (Structural implementation over the character list, so that the
kernel can evaluate it on concrete inputs.) -/
def pyStrip (s : String) : String :=
  String.mk (((s.data.dropWhile Char.isWhitespace).reverse.dropWhile
    Char.isWhitespace).reverse)

/-- Python `str.split()` with no argument: split on runs of whitespace,
dropping empty pieces. -/
def pySplit (s : String) : List String :=
  ((s.data.splitOnP Char.isWhitespace).map (fun cs => String.mk cs)).filter
    (fun p => p ≠ "")

/-- `" ".join(s.split())`: collapse internal whitespace to single spaces. -/
def normalizeWs (s : String) : String :=
  String.intercalate " " (pySplit s)

/-- bs4 `get_text(sep, strip=True)` over the text nodes of the element: strip each
node, drop the ones that become empty, join with `sep`. -/
def get_text (sep : String) (contents : List String) : String :=
  String.intercalate sep ((contents.map pyStrip).filter (fun p => p ≠ ""))

/-- Result of the fixed set of BeautifulSoup probes `parse_generic_profile`
performs on the markup.  Each `find` result is `none` (no match) or
`some contents` (the text nodes of the matched element); `counterElems` is the
list of elements matched by `soup.select("a.UnderlineNav-item .Counter")`. -/
structure Soup where
  nameSpan : Option (List String)
  additionalNameSpan : Option (List String)
  pNoteDiv : Option (List String)
  homeLocationLi : Option (List String)
  counterElems : List (List String)
  flexOrder1Div : Option (List String)
deriving DecidableEq, Repr

/-- Python truthiness of a `find` result: `None` is falsy, and a bs4 `Tag` is
falsy exactly when its contents list is empty (`Tag.__len__`). -/
def tagTruthy : Option (List String) → Bool
  | none => false
  | some contents => decide (contents ≠ [])

/-- Contents of a probe result (only consulted when the tag is truthy). -/
def contentsOf : Option (List String) → List String
  | none => []
  | some contents => contents

/-- The record built by `parse_generic_profile`: the `data` dict. -/
structure ProfileData where
  url : Option String
  name : Option String
  title : Option String
  location : Option String
  about : Option String
  experiences : Option String
deriving DecidableEq, Repr

/-- `parse_generic_profile(html, url)` from the source: initialize all fields
to `None` except `url`, then probe each location independently, assigning
whenever the probed tag is truthy; the stats probe collects
`"<txt> items"` for each counter with non-empty text, appends the normalized
follow-section text when that tag is truthy, and joins with `" | "`. -/
def parse_generic_profile (soup : Soup) (url : Option String) : ProfileData :=
  let data0 : ProfileData :=
    { url := url, name := none, title := none, location := none,
      about := none, experiences := none }
  let data1 :=
    if tagTruthy soup.nameSpan then
      { data0 with name := some (get_text "" (contentsOf soup.nameSpan)) }
    else data0
  let data2 :=
    if tagTruthy soup.additionalNameSpan then
      { data1 with title := some (get_text "" (contentsOf soup.additionalNameSpan)) }
    else data1
  let data3 :=
    if tagTruthy soup.pNoteDiv then
      { data2 with about := some (get_text "" (contentsOf soup.pNoteDiv)) }
    else data2
  let data4 :=
    if tagTruthy soup.homeLocationLi then
      { data3 with location := some (get_text "" (contentsOf soup.homeLocationLi)) }
    else data3
  let stats0 :=
    ((soup.counterElems.map (fun stat => get_text "" stat)).filter
      (fun txt => txt ≠ "")).map (fun txt => txt ++ " items")
  let stats1 :=
    if tagTruthy soup.flexOrder1Div then
      stats0 ++ [normalizeWs (get_text " " (contentsOf soup.flexOrder1Div))]
    else stats0
  if stats1 ≠ [] then
    { data4 with experiences := some (String.intercalate " | " stats1) }
  else data4

/-- The source text of `parse_generic_profile` opens with a nested
`def parse_generic_profile(html, url=None):` whose whole body is a docstring
(a Python function that returns `None`); the binding is never referenced.
This definition reproduces that shape: the inner function is bound and
ignored, and the rest of the body is identical. -/
def parse_generic_profile_nested (soup : Soup) (url : Option String) : ProfileData :=
  let inner : Soup → Option String → Option ProfileData := fun _ _ => none
  let _ := inner
  let data0 : ProfileData :=
    { url := url, name := none, title := none, location := none,
      about := none, experiences := none }
  let data1 :=
    if tagTruthy soup.nameSpan then
      { data0 with name := some (get_text "" (contentsOf soup.nameSpan)) }
    else data0
  let data2 :=
    if tagTruthy soup.additionalNameSpan then
      { data1 with title := some (get_text "" (contentsOf soup.additionalNameSpan)) }
    else data1
  let data3 :=
    if tagTruthy soup.pNoteDiv then
      { data2 with about := some (get_text "" (contentsOf soup.pNoteDiv)) }
    else data2
  let data4 :=
    if tagTruthy soup.homeLocationLi then
      { data3 with location := some (get_text "" (contentsOf soup.homeLocationLi)) }
    else data3
  let stats0 :=
    ((soup.counterElems.map (fun stat => get_text "" stat)).filter
      (fun txt => txt ≠ "")).map (fun txt => txt ++ " items")
  let stats1 :=
    if tagTruthy soup.flexOrder1Div then
      stats0 ++ [normalizeWs (get_text " " (contentsOf soup.flexOrder1Div))]
    else stats0
  if stats1 ≠ [] then
    { data4 with experiences := some (String.intercalate " | " stats1) }
  else data4

/-- `links = [l.strip() for l in f if l.strip()]`: keep non-blank lines in
order, stripped. -/
def readLinks (fileLines : List String) : List String :=
  (fileLines.filter (fun l => pyStrip l ≠ "")).map pyStrip

/-- One observable event of a run: a navigation attempt (`driver.get`) with its
URL, 1-based attempt number and outcome, or a sleep of `d` seconds
(`time.sleep` / `random_delay`). -/
inductive Event where
  | nav (url : String) (attempt : Nat) (success : Bool)
  | sleep (d : ℚ)
deriving DecidableEq, Repr

/-- The retry loop of `safe_get`, from attempt number `attempt` with
`remaining` attempts left.  `outcome a` tells whether `driver.get` succeeds at
attempt `a`; `rand a` is the value `random.uniform(MIN_DELAY, MAX_DELAY)`
drawn after a success at attempt `a`; `page` is `driver.page_source`.
Returns the event trace and the result (`None` after exhaustion). -/
def safe_get_from (url : String) (outcome : Nat → Bool) (rand : Nat → ℚ)
    (page : String) : Nat → Nat → List Event × Option String
  | _, 0 => ([], none)
  | attempt, r + 1 =>
    if outcome attempt then
      ([Event.nav url attempt true, Event.sleep (rand attempt)], some page)
    else
      let rest := safe_get_from url outcome rand page (attempt + 1) r
      (Event.nav url attempt false :: Event.sleep (2 * (attempt : ℚ)) :: rest.1,
       rest.2)

/-- `safe_get(driver, url)`: `for attempt in range(1, MAX_RETRIES + 1)`. -/
def safe_get (url : String) (outcome : Nat → Bool) (rand : Nat → ℚ)
    (page : String) (maxRetries : Nat) : List Event × Option String :=
  safe_get_from url outcome rand page 1 maxRetries

/-- One entry of the `profiles` list: either the bare `{"url": link}` dict
appended when `safe_get` returned nothing truthy, or the full dict returned
by `parse_generic_profile`. -/
inductive Row where
  | urlOnly (url : String)
  | full (d : ProfileData)
deriving DecidableEq, Repr

/-- The value of the `url` key of a row. -/
def rowUrl : Row → Option String
  | Row.urlOnly u => some u
  | Row.full d => d.url

/-- The per-URL loop of `scrape_public_profiles`, over `links`, with `i` the
index of the current URL.  `outcome i` and `fRand i` are the oracles fed to
`safe_get` for URL `i`, `lRand i` is the `random_delay()` draw of the loop itself,
`page i` is the page source the driver would report for URL `i`, and
`soupOf` is BeautifulSoup, turning markup into probe results. -/
def scrape_go (outcome : Nat → Nat → Bool) (fRand : Nat → Nat → ℚ)
    (lRand : Nat → ℚ) (page : Nat → String) (soupOf : String → Soup)
    (maxRetries : Nat) : List String → Nat → List Event × List Row
  | [], _ => ([], [])
  | link :: rest, i =>
    let fg := safe_get link (outcome i) (fRand i) (page i) maxRetries
    let tailRes := scrape_go outcome fRand lRand page soupOf maxRetries rest (i + 1)
    match fg.2 with
    | none => (fg.1 ++ tailRes.1, Row.urlOnly link :: tailRes.2)
    | some html =>
      if html = "" then
        (fg.1 ++ tailRes.1, Row.urlOnly link :: tailRes.2)
      else
        (fg.1 ++ [Event.sleep (lRand i)] ++ tailRes.1,
         Row.full (parse_generic_profile (soupOf html) (some link)) :: tailRes.2)

/-- The `profiles` list accumulated by a full batch run over `fileLines`. -/
def scrape_rows (outcome : Nat → Nat → Bool) (fRand : Nat → Nat → ℚ)
    (lRand : Nat → ℚ) (page : Nat → String) (soupOf : String → Soup)
    (maxRetries : Nat) (fileLines : List String) : List Row :=
  (scrape_go outcome fRand lRand page soupOf maxRetries (readLinks fileLines) 0).2

/-- The event trace of a full batch run over `fileLines`. -/
def scrape_trace (outcome : Nat → Nat → Bool) (fRand : Nat → Nat → ℚ)
    (lRand : Nat → ℚ) (page : Nat → String) (soupOf : String → Soup)
    (maxRetries : Nat) (fileLines : List String) : List Event :=
  (scrape_go outcome fRand lRand page soupOf maxRetries (readLinks fileLines) 0).1

/-- The keys of the dict of a row, in insertion order. -/
def rowKeys : Row → List String
  | Row.urlOnly _ => ["url"]
  | Row.full _ => ["url", "name", "title", "location", "about", "experiences"]

/-- One step of the pandas column collection: append the keys of the row not yet
seen. -/
def colStep (acc : List String) (r : Row) : List String :=
  acc ++ (rowKeys r).filter (fun k => ! acc.contains k)

/-- `pd.DataFrame(profiles)` column order: union of the keys of the dicts in order
of first appearance. -/
def columns (rows : List Row) : List String :=
  rows.foldl colStep []

/-- Looking a key up in the dict of a row: `none` is a missing key or a `None`
value, both of which `to_csv` renders as the empty string. -/
def rowValue : Row → String → Option String
  | Row.urlOnly u, k => if k = "url" then some u else none
  | Row.full d, k =>
    if k = "url" then d.url
    else if k = "name" then d.name
    else if k = "title" then d.title
    else if k = "location" then d.location
    else if k = "about" then d.about
    else if k = "experiences" then d.experiences
    else none

/-- `df.to_csv("profiles.csv", index=False)` as a table of cells: the header
row, then one data row per record in order; missing values render empty. -/
def toCsvTable (rows : List Row) : List (List String) :=
  (columns rows) ::
    rows.map (fun r => (columns rows).map (fun c => (rowValue r c).getD ""))

/-- Computations over the driver, with exceptions: state is the number of
`driver.quit()` calls performed so far. -/
def DriverComp (α : Type) : Type := Nat → Except String α × Nat

/-- A computation that succeeds with `a` and touches nothing. -/
def DriverComp.pureC {α : Type} (a : α) : DriverComp α := fun s => (Except.ok a, s)

/-- A computation that raises. -/
def DriverComp.throwC {α : Type} (e : String) : DriverComp α :=
  fun s => (Except.error e, s)

/-- `driver.quit()`. -/
def quitDriver : DriverComp Unit := fun s => (Except.ok (), s + 1)

/-- Python `try: body except Exception as e: handler(e) finally: fin`:
the handler runs on an exception from the body; the `finally` block runs on
every path; an exception from the handler propagates after `fin`. -/
def tryExceptFinally {α : Type} (body : DriverComp α) (handler : String → DriverComp α)
    (fin : DriverComp Unit) : DriverComp α := fun s =>
  match body s with
  | (Except.ok a, s1) =>
    match fin s1 with
    | (Except.ok _, s2) => (Except.ok a, s2)
    | (Except.error e2, s2) => (Except.error e2, s2)
  | (Except.error e, s1) =>
    match handler e s1 with
    | (Except.ok a, s2) =>
      match fin s2 with
      | (Except.ok _, s3) => (Except.ok a, s3)
      | (Except.error e3, s3) => (Except.error e3, s3)
    | (Except.error e2, s2) =>
      match fin s2 with
      | (Except.ok _, s3) => (Except.error e2, s3)
      | (Except.error e3, s3) => (Except.error e3, s3)

/-- The `try` body of `scrape_public_profiles`: open `profile_urls.txt`
(`fileResult` is its content, or the exception opening it raises), run the
loop, and write `profiles.csv` (`writeOk` tells whether `to_csv` succeeds).
The loop itself cannot raise: `safe_get` catches the exceptions of the driver.
The body never touches the quit counter. -/
def scrape_body (fileResult : Except String (List String)) (writeOk : Bool)
    (outcome : Nat → Nat → Bool) (fRand : Nat → Nat → ℚ) (lRand : Nat → ℚ)
    (page : Nat → String) (soupOf : String → Soup) (maxRetries : Nat) :
    DriverComp (List (List String)) := fun s =>
  match fileResult with
  | Except.error e => (Except.error e, s)
  | Except.ok fileLines =>
    let rows := scrape_rows outcome fRand lRand page soupOf maxRetries fileLines
    if writeOk then (Except.ok (toCsvTable rows), s)
    else (Except.error "to_csv failed", s)

/-- `scrape_public_profiles` with its resource handling: create the driver
(before the `try`; when creation fails the exception propagates with no
driver to quit), then `try`/`except Exception`/`finally: driver.quit()`.
The `except` block only prints, so it swallows the exception of the body. -/
def scrape_public_profiles_session (createOk : Bool)
    (fileResult : Except String (List String)) (writeOk : Bool)
    (outcome : Nat → Nat → Bool) (fRand : Nat → Nat → ℚ) (lRand : Nat → ℚ)
    (page : Nat → String) (soupOf : String → Soup) (maxRetries : Nat) :
    DriverComp (Option (List (List String))) := fun s =>
  if createOk then
    tryExceptFinally
      (fun s0 =>
        match scrape_body fileResult writeOk outcome fRand lRand page soupOf maxRetries s0 with
        | (Except.ok t, s1) => (Except.ok (some t), s1)
        | (Except.error e, s1) => (Except.error e, s1))
      (fun _ => DriverComp.pureC none)
      quitDriver s
  else
    (Except.error "SessionCreationError", s)

/-- State of the scan that extracts, from a trace, the sleep totals between
consecutive successful navigations: `none` before the first success,
`some (s, f)` with `s` the sleep accumulated since the last success and `f`
whether a failed navigation occurred since. -/
def gapStep (st : Option (ℚ × Bool)) : Event → Option (ℚ × Bool)
  | Event.nav _ _ true => some (0, false)
  | Event.nav _ _ false => st.map (fun p => (p.1, true))
  | Event.sleep d => st.map (fun p => (p.1 + d, p.2))

/-- Scan a trace, emitting `(sleep total, saw a failed nav)` at each
successful navigation after the first. -/
def gapsAux : List Event → Option (ℚ × Bool) → List (ℚ × Bool)
  | [], _ => []
  | e :: rest, st =>
    (match e, st with
     | Event.nav _ _ true, some p => [p]
     | _, _ => []) ++ gapsAux rest (gapStep st e)

/-- The scan state after a trace. -/
def gapStateAfter (es : List Event) (st : Option (ℚ × Bool)) : Option (ℚ × Bool) :=
  es.foldl gapStep st

/-- For each pair of consecutive successful navigations in the trace: the
total sleep between them and whether any failed navigation lies between. -/
def gapsBetweenSuccesses (tr : List Event) : List (ℚ × Bool) :=
  gapsAux tr none

/-- Every failed navigation at attempt `a` is immediately followed by a sleep
of at least `2 * a` seconds. -/
def backoffOk : List Event → Bool
  | [] => true
  | Event.nav _ a false :: rest =>
    (match rest with
     | Event.sleep d :: _ => decide ((2 * (a : ℚ)) ≤ d)
     | _ => false) && backoffOk rest
  | _ :: rest => backoffOk rest

/-- A trace does not end in a failed navigation (so appending to it cannot
break `backoffOk`). -/
def endsOk (es : List Event) : Bool :=
  match es.getLast? with
  | some (Event.nav _ _ false) => false
  | _ => true

/-- The fixed column order of the output file. -/
def outputFields : List String :=
  ["url", "name", "title", "location", "about", "experiences"]

/-- The `stats` list as built by the source: counter texts that are non-empty,
suffixed `" items"`, then the normalized follow-section text when that tag is
truthy. -/
def statsOf (s : Soup) : List String :=
  let stats0 :=
    ((s.counterElems.map (fun stat => get_text "" stat)).filter
      (fun txt => txt ≠ "")).map (fun txt => txt ++ " items")
  if tagTruthy s.flexOrder1Div then
    stats0 ++ [normalizeWs (get_text " " (contentsOf s.flexOrder1Div))]
  else stats0

/-- The assignment condition C2 claims, at one input: each of the four scalar
fields is assigned iff its element exists and its stripped text is
non-empty. -/
def c2ClaimAt (s : Soup) (u : Option String) : Prop :=
  ((parse_generic_profile s u).name ≠ none ↔
    s.nameSpan ≠ none ∧ get_text "" (contentsOf s.nameSpan) ≠ "") ∧
  ((parse_generic_profile s u).title ≠ none ↔
    s.additionalNameSpan ≠ none ∧ get_text "" (contentsOf s.additionalNameSpan) ≠ "") ∧
  ((parse_generic_profile s u).location ≠ none ↔
    s.homeLocationLi ≠ none ∧ get_text "" (contentsOf s.homeLocationLi) ≠ "") ∧
  ((parse_generic_profile s u).about ≠ none ↔
    s.pNoteDiv ≠ none ∧ get_text "" (contentsOf s.pNoteDiv) ≠ "")

/-- The `experiences` value C6 claims: pieces are the non-empty counter texts
suffixed `" items"` plus the normalized follow-section text whenever that
section exists (is found at all); `None` when there is no piece. -/
def experiencesPerSpec (s : Soup) : Option String :=
  let pieces :=
    ((s.counterElems.map (fun e => get_text "" e)).filter
      (fun t => t ≠ "")).map (fun t => t ++ " items")
    ++ (match s.flexOrder1Div with
        | some c => [normalizeWs (get_text " " c)]
        | none => [])
  if pieces = [] then none else some (String.intercalate " | " pieces)

/-- The C6 claim at one input. -/
def c6ClaimAt (s : Soup) (u : Option String) : Prop :=
  (parse_generic_profile s u).experiences = experiencesPerSpec s

/-- The amended `experiences` value: the follow-section piece is included only
when the follow-section tag is truthy (found with non-empty contents). -/
def experiencesAmendedSpec (s : Soup) : Option String :=
  let pieces :=
    ((s.counterElems.map (fun e => get_text "" e)).filter
      (fun t => t ≠ "")).map (fun t => t ++ " items")
    ++ (if tagTruthy s.flexOrder1Div then
          [normalizeWs (get_text " " (contentsOf s.flexOrder1Div))]
        else [])
  if pieces = [] then none else some (String.intercalate " | " pieces)

lemma parse_url (s : Soup) (u : Option String) :
    (parse_generic_profile s u).url = u := by
  unfold parse_generic_profile
  dsimp only
  split_ifs <;> rfl

lemma parse_name (s : Soup) (u : Option String) :
    (parse_generic_profile s u).name =
      if tagTruthy s.nameSpan then some (get_text "" (contentsOf s.nameSpan))
      else none := by
  unfold parse_generic_profile
  dsimp only
  split_ifs <;> rfl

lemma parse_title (s : Soup) (u : Option String) :
    (parse_generic_profile s u).title =
      if tagTruthy s.additionalNameSpan then
        some (get_text "" (contentsOf s.additionalNameSpan))
      else none := by
  unfold parse_generic_profile
  dsimp only
  split_ifs <;> rfl

lemma parse_about (s : Soup) (u : Option String) :
    (parse_generic_profile s u).about =
      if tagTruthy s.pNoteDiv then some (get_text "" (contentsOf s.pNoteDiv))
      else none := by
  unfold parse_generic_profile
  dsimp only
  split_ifs <;> rfl

lemma parse_location (s : Soup) (u : Option String) :
    (parse_generic_profile s u).location =
      if tagTruthy s.homeLocationLi then
        some (get_text "" (contentsOf s.homeLocationLi))
      else none := by
  unfold parse_generic_profile
  dsimp only
  split_ifs <;> rfl

lemma parse_experiences (s : Soup) (u : Option String) :
    (parse_generic_profile s u).experiences =
      if statsOf s ≠ [] then some (String.intercalate " | " (statsOf s))
      else none := by
  unfold parse_generic_profile statsOf
  dsimp only
  split_ifs <;> rfl

lemma scrape_go_rowUrls (outcome : Nat → Nat → Bool) (fRand : Nat → Nat → ℚ)
    (lRand : Nat → ℚ) (page : Nat → String) (soupOf : String → Soup)
    (maxRetries : Nat) :
    ∀ (links : List String) (i : Nat),
      ((scrape_go outcome fRand lRand page soupOf maxRetries links i).2).map rowUrl
        = links.map some := by
  intro links
  induction links with
  | nil => intro i; rfl
  | cons link rest ih =>
    intro i
    unfold scrape_go
    cases hfg : (safe_get link (outcome i) (fRand i) (page i) maxRetries).2 with
    | none => simp [hfg, rowUrl, ih]
    | some html =>
      by_cases hh : html = "" <;>
        simp [hfg, hh, rowUrl, ih, parse_url]

/-- The row the loop body appends for `link` at index `i`. -/
def rowFor (outcome : Nat → Nat → Bool) (fRand : Nat → Nat → ℚ)
    (page : Nat → String) (soupOf : String → Soup) (maxRetries : Nat)
    (link : String) (i : Nat) : Row :=
  match (safe_get link (outcome i) (fRand i) (page i) maxRetries).2 with
  | none => Row.urlOnly link
  | some html =>
    if html = "" then Row.urlOnly link
    else Row.full (parse_generic_profile (soupOf html) (some link))

lemma scrape_go_get? (outcome : Nat → Nat → Bool) (fRand : Nat → Nat → ℚ)
    (lRand : Nat → ℚ) (page : Nat → String) (soupOf : String → Soup)
    (maxRetries : Nat) :
    ∀ (links : List String) (i k : Nat),
      ((scrape_go outcome fRand lRand page soupOf maxRetries links i).2).get? k
        = (links.get? k).map
            (fun link => rowFor outcome fRand page soupOf maxRetries link (i + k)) := by
  intro links
  induction links with
  | nil => intro i k; cases k <;> rfl
  | cons link rest ih =>
    intro i k
    unfold scrape_go
    cases k with
    | zero =>
      unfold rowFor
      cases hfg : (safe_get link (outcome i) (fRand i) (page i) maxRetries).2 with
      | none => simp [hfg]
      | some html =>
        by_cases hh : html = "" <;> simp [hfg, hh]
    | succ k' =>
      have hrec := ih (i + 1) k'
      cases hfg : (safe_get link (outcome i) (fRand i) (page i) maxRetries).2 with
      | none =>
        simp only [hfg, List.get?_cons_succ, hrec]
        have : i + 1 + k' = i + (k' + 1) := by omega
        simp [this]
      | some html =>
        by_cases hh : html = "" <;>
          · simp only [hfg, hh, if_true, if_false, List.get?_cons_succ, hrec]
            have : i + 1 + k' = i + (k' + 1) := by omega
            simp [this, hh]

lemma safe_get_from_none (url : String) (outcome : Nat → Bool) (rand : Nat → ℚ)
    (page : String) (h : ∀ a, outcome a = false) :
    ∀ (r a : Nat), (safe_get_from url outcome rand page a r).2 = none := by
  intro r
  induction r with
  | zero => intro a; rfl
  | succ r' ih =>
    intro a
    unfold safe_get_from
    simp [h a, ih]

lemma safe_get_from_page (url : String) (outcome : Nat → Bool) (rand : Nat → ℚ)
    (page : String) :
    ∀ (r a : Nat) (html : String),
      (safe_get_from url outcome rand page a r).2 = some html → html = page := by
  intro r
  induction r with
  | zero => intro a html h; exact absurd h (by simp [safe_get_from])
  | succ r' ih =>
    intro a html h
    unfold safe_get_from at h
    by_cases ho : outcome a
    · simp [ho] at h
      exact h.symm
    · simp [ho] at h
      exact ih (a + 1) html h

/-- C1: over any input file, the batch driver produces exactly one row per
non-blank input line, in order, and the `url` field of each row is the
corresponding non-blank line after whitespace trimming. -/
theorem claim_C1 (outcome : Nat → Nat → Bool) (fRand : Nat → Nat → ℚ)
    (lRand : Nat → ℚ) (page : Nat → String) (soupOf : String → Soup)
    (maxRetries : Nat) (fileLines : List String) :
    (scrape_rows outcome fRand lRand page soupOf maxRetries fileLines).map rowUrl
        = ((fileLines.filter (fun l => pyStrip l ≠ "")).map pyStrip).map some
      ∧ (scrape_rows outcome fRand lRand page soupOf maxRetries fileLines).length
        = (fileLines.filter (fun l => pyStrip l ≠ "")).length := by
  have h := scrape_go_rowUrls outcome fRand lRand page soupOf maxRetries
    (readLinks fileLines) 0
  constructor
  · exact h
  · have hlen := congrArg List.length h
    simpa [scrape_rows, readLinks] using hlen

/-- C9: the nested inner redefinition of `parse_generic_profile` is dead code:
with the inner binding present or removed, the extractor returns the same
record on every input. -/
theorem claim_C9 :
    ∀ (s : Soup) (u : Option String),
      parse_generic_profile_nested s u = parse_generic_profile s u := by
  intro s u
  rfl

/-- A markup in which no probe matches. -/
def emptySoup : Soup := ⟨none, none, none, none, [], none⟩

/-- A markup whose name probe fails but whose other probes all match. -/
def richSoup : Soup := ⟨none, some ["t"], some ["b"], some ["loc"], [["1"]], some ["f"]⟩

lemma scrape_rows_length (outcome : Nat → Nat → Bool) (fRand : Nat → Nat → ℚ)
    (lRand : Nat → ℚ) (page : Nat → String) (soupOf : String → Soup)
    (maxRetries : Nat) (fileLines : List String) :
    (scrape_rows outcome fRand lRand page soupOf maxRetries fileLines).length
      = (readLinks fileLines).length := by
  have h := congrArg List.length
    (scrape_go_rowUrls outcome fRand lRand page soupOf maxRetries (readLinks fileLines) 0)
  simpa [scrape_rows] using h

/-- C4: when every fetch attempt for the URL at index `i` fails, `safe_get`
returns `None` (not an exception), the driver appends a record holding only
the `url` field, and every other URL still gets its row. -/
theorem claim_C4 (outcome : Nat → Nat → Bool) (fRand : Nat → Nat → ℚ)
    (lRand : Nat → ℚ) (page : Nat → String) (soupOf : String → Soup)
    (maxRetries : Nat) (fileLines : List String) (i : Nat) (link : String)
    (hlink : (readLinks fileLines).get? i = some link)
    (hfail : ∀ a, outcome i a = false) :
    (safe_get link (outcome i) (fRand i) (page i) maxRetries).2 = none
    ∧ (scrape_rows outcome fRand lRand page soupOf maxRetries fileLines).get? i
        = some (Row.urlOnly link)
    ∧ (scrape_rows outcome fRand lRand page soupOf maxRetries fileLines).length
        = (readLinks fileLines).length := by
  have hnone : (safe_get link (outcome i) (fRand i) (page i) maxRetries).2 = none :=
    safe_get_from_none link (outcome i) (fRand i) (page i) hfail maxRetries 1
  refine ⟨hnone, ?_, scrape_rows_length _ _ _ _ _ _ _⟩
  have h := scrape_go_get? outcome fRand lRand page soupOf maxRetries
    (readLinks fileLines) 0 i
  rw [scrape_rows]
  rw [h, hlink]
  simp only [Option.map_some', Nat.zero_add]
  unfold rowFor
  rw [hnone]

/-- Witness for C4: a three-line input file whose first URL always fails. -/
theorem claim_C4_witness :
    (safe_get "u1" (fun _ => false) (fun _ => (5 : ℚ)) "x" 3).2 = none
    ∧ (scrape_rows (fun _ _ => false) (fun _ _ => (5 : ℚ)) (fun _ => (5 : ℚ))
        (fun _ => "x") (fun _ => emptySoup) 3 ["u1", "", "u2"]).get? 0
        = some (Row.urlOnly "u1")
    ∧ (scrape_rows (fun _ _ => false) (fun _ _ => (5 : ℚ)) (fun _ => (5 : ℚ))
        (fun _ => "x") (fun _ => emptySoup) 3 ["u1", "", "u2"]).length
        = (readLinks ["u1", "", "u2"]).length :=
  claim_C4 (fun _ _ => false) (fun _ _ => (5 : ℚ)) (fun _ => (5 : ℚ))
    (fun _ => "x") (fun _ => emptySoup) 3 ["u1", "", "u2"] 0 "u1"
    (by decide) (fun _ => rfl)

/-- C10: if the fetcher reports a successful navigation whose page source is
the empty string, the driver appends a `url`-only record for that URL — for
every possible extractor `soupOf`, so the extractor is never consulted on
that markup. -/
theorem claim_C10 (outcome : Nat → Nat → Bool) (fRand : Nat → Nat → ℚ)
    (lRand : Nat → ℚ) (page : Nat → String) (soupOf : String → Soup)
    (maxRetries : Nat) (fileLines : List String) (i : Nat) (link : String)
    (hlink : (readLinks fileLines).get? i = some link)
    (hempty : (safe_get link (outcome i) (fRand i) (page i) maxRetries).2 = some "") :
    (scrape_rows outcome fRand lRand page soupOf maxRetries fileLines).get? i
      = some (Row.urlOnly link) := by
  have h := scrape_go_get? outcome fRand lRand page soupOf maxRetries
    (readLinks fileLines) 0 i
  rw [scrape_rows, h, hlink]
  simp only [Option.map_some', Nat.zero_add]
  unfold rowFor
  rw [hempty]
  simp

/-- Witness for C10: a navigation that succeeds at once on an empty page. -/
theorem claim_C10_witness :
    (scrape_rows (fun _ _ => true) (fun _ _ => (5 : ℚ)) (fun _ => (5 : ℚ))
        (fun _ => "") (fun _ => richSoup) 3 ["u1"]).get? 0
      = some (Row.urlOnly "u1") :=
  claim_C10 (fun _ _ => true) (fun _ _ => (5 : ℚ)) (fun _ => (5 : ℚ))
    (fun _ => "") (fun _ => richSoup) 3 ["u1"] 0 "u1" (by decide) rfl

/-- C5: the extractor is a total function on probe results: `url` is always
the input URL, a missing element leaves its field null, and each field
depends only on its own probe, so the absence of one never prevents the
extraction of another. -/
theorem claim_C5 :
    ∀ (s s' : Soup) (u : Option String),
      (parse_generic_profile s u).url = u
      ∧ (s.nameSpan = none → (parse_generic_profile s u).name = none)
      ∧ (s.additionalNameSpan = none → (parse_generic_profile s u).title = none)
      ∧ (s.pNoteDiv = none → (parse_generic_profile s u).about = none)
      ∧ (s.homeLocationLi = none → (parse_generic_profile s u).location = none)
      ∧ (s.counterElems = [] → s.flexOrder1Div = none →
          (parse_generic_profile s u).experiences = none)
      ∧ (s'.nameSpan = s.nameSpan →
          (parse_generic_profile s' u).name = (parse_generic_profile s u).name)
      ∧ (s'.additionalNameSpan = s.additionalNameSpan →
          (parse_generic_profile s' u).title = (parse_generic_profile s u).title)
      ∧ (s'.pNoteDiv = s.pNoteDiv →
          (parse_generic_profile s' u).about = (parse_generic_profile s u).about)
      ∧ (s'.homeLocationLi = s.homeLocationLi →
          (parse_generic_profile s' u).location = (parse_generic_profile s u).location)
      ∧ (s'.counterElems = s.counterElems → s'.flexOrder1Div = s.flexOrder1Div →
          (parse_generic_profile s' u).experiences
            = (parse_generic_profile s u).experiences) := by
  intro s s' u
  refine ⟨parse_url s u, ?_, ?_, ?_, ?_, ?_, ?_, ?_, ?_, ?_, ?_⟩
  · intro h; simp [parse_name, h, tagTruthy]
  · intro h; simp [parse_title, h, tagTruthy]
  · intro h; simp [parse_about, h, tagTruthy]
  · intro h; simp [parse_location, h, tagTruthy]
  · intro h1 h2; simp [parse_experiences, statsOf, h1, h2, tagTruthy]
  · intro h; rw [parse_name, parse_name, h]
  · intro h; rw [parse_title, parse_title, h]
  · intro h; rw [parse_about, parse_about, h]
  · intro h; rw [parse_location, parse_location, h]
  · intro h1 h2; rw [parse_experiences, parse_experiences]
    unfold statsOf
    rw [h1, h2]

/-- Witness for C5: the empty markup yields the all-null record with the
input URL, and `richSoup` and the empty markup agree on `name` because their
name probes agree. -/
theorem claim_C5_witness :
    (parse_generic_profile emptySoup (some "u")).url = some "u"
    ∧ (parse_generic_profile emptySoup (some "u")).name = none
    ∧ (parse_generic_profile emptySoup (some "u")).title = none
    ∧ (parse_generic_profile emptySoup (some "u")).about = none
    ∧ (parse_generic_profile emptySoup (some "u")).location = none
    ∧ (parse_generic_profile emptySoup (some "u")).experiences = none
    ∧ (parse_generic_profile richSoup (some "u")).name
        = (parse_generic_profile emptySoup (some "u")).name := by
  have h := claim_C5 emptySoup richSoup (some "u")
  exact ⟨h.1, h.2.1 rfl, h.2.2.1 rfl, h.2.2.2.1 rfl, h.2.2.2.2.1 rfl,
    h.2.2.2.2.2.1 rfl rfl, h.2.2.2.2.2.2.1 rfl⟩

/-- C2 is refuted by a name element whose text is whitespace-only: the element
exists, its normalized text is empty, yet the field is assigned the empty
string instead of staying null. -/
theorem claim_C2_counterexample :
    ¬ c2ClaimAt ⟨some ["   "], none, none, none, [], none⟩ none := by
  unfold c2ClaimAt
  decide

/-- C2 amended: each of the four scalar fields is assigned iff its element is
found with non-empty contents (Python truthiness of a bs4 tag); the assigned
value is the stripped text, which may be the empty string. -/
theorem claim_C2 :
    ∀ (s : Soup) (u : Option String),
      (parse_generic_profile s u).name
          = (if tagTruthy s.nameSpan then some (get_text "" (contentsOf s.nameSpan))
             else none)
      ∧ (parse_generic_profile s u).title
          = (if tagTruthy s.additionalNameSpan then
               some (get_text "" (contentsOf s.additionalNameSpan))
             else none)
      ∧ (parse_generic_profile s u).location
          = (if tagTruthy s.homeLocationLi then
               some (get_text "" (contentsOf s.homeLocationLi))
             else none)
      ∧ (parse_generic_profile s u).about
          = (if tagTruthy s.pNoteDiv then some (get_text "" (contentsOf s.pNoteDiv))
             else none) := by
  intro s u
  exact ⟨parse_name s u, parse_title s u, parse_location s u, parse_about s u⟩

/-- C6 is refuted by a follow section that exists with no contents: C6 asks
for its (empty) normalized text to be joined in, but the tag is falsy and the
source skips it, leaving the field null. -/
theorem claim_C6_counterexample :
    ¬ c6ClaimAt ⟨none, none, none, none, [], some []⟩ none := by
  unfold c6ClaimAt
  decide

/-- C6 amended: `experiences` is the `" | "`-join of the non-empty counter
texts suffixed `" items"`, followed by the normalized follow-section text when
that tag is found with non-empty contents; null when no piece exists. -/
theorem claim_C6 :
    ∀ (s : Soup) (u : Option String),
      (parse_generic_profile s u).experiences = experiencesAmendedSpec s := by
  intro s u
  rw [parse_experiences]
  unfold experiencesAmendedSpec statsOf
  dsimp only
  by_cases h : tagTruthy s.flexOrder1Div <;> by_cases h2 : statsOf s = [] <;>
    simp_all [statsOf, h]

lemma colStep_six (r : Row) : colStep outputFields r = outputFields := by
  cases r <;> rfl

lemma foldl_colStep_six : ∀ rows : List Row,
    List.foldl colStep outputFields rows = outputFields := by
  intro rows
  induction rows with
  | nil => rfl
  | cons r rest ih => rw [List.foldl_cons, colStep_six, ih]

lemma foldl_colStep_aux :
    ∀ (rows : List Row) (acc : List String),
      (acc = [] ∨ acc = ["url"]) → (∃ d, Row.full d ∈ rows) →
      List.foldl colStep acc rows = outputFields := by
  intro rows
  induction rows with
  | nil =>
    intro acc _ hex
    rcases hex with ⟨d, hd⟩
    exact absurd hd (List.not_mem_nil _)
  | cons r rest ih =>
    intro acc hacc hex
    cases r with
    | full d =>
      have hstep : colStep acc (Row.full d) = outputFields := by
        rcases hacc with h | h <;> subst h <;> rfl
      rw [List.foldl_cons, hstep, foldl_colStep_six]
    | urlOnly u =>
      have hstep : colStep acc (Row.urlOnly u) = ["url"] := by
        rcases hacc with h | h <;> subst h <;> rfl
      rw [List.foldl_cons, hstep]
      refine ih ["url"] (Or.inr rfl) ?_
      rcases hex with ⟨d, hd⟩
      rcases List.mem_cons.mp hd with h | h
      · exact absurd h (by simp)
      · exact ⟨d, h⟩

lemma columns_of_mem_full (rows : List Row)
    (hfull : ∃ d, Row.full d ∈ rows) : columns rows = outputFields :=
  foldl_colStep_aux rows [] (Or.inl rfl) hfull

/-- C7 amended: as soon as one URL was actually parsed, the output table has
the six-field header in the fixed order, one data row per input URL in input
order, and an empty string for every missing field; when every fetch fails
the header degrades to the single column `url`. -/
theorem claim_C7 (outcome : Nat → Nat → Bool) (fRand : Nat → Nat → ℚ)
    (lRand : Nat → ℚ) (page : Nat → String) (soupOf : String → Soup)
    (maxRetries : Nat) (fileLines : List String)
    (hfull : ∃ d, Row.full d ∈
      scrape_rows outcome fRand lRand page soupOf maxRetries fileLines) :
    columns (scrape_rows outcome fRand lRand page soupOf maxRetries fileLines)
        = outputFields
    ∧ toCsvTable (scrape_rows outcome fRand lRand page soupOf maxRetries fileLines)
        = outputFields ::
          (scrape_rows outcome fRand lRand page soupOf maxRetries fileLines).map
            (fun r => outputFields.map (fun c => (rowValue r c).getD ""))
    ∧ (toCsvTable (scrape_rows outcome fRand lRand page soupOf maxRetries fileLines)).length
        = (readLinks fileLines).length + 1 := by
  have hc := columns_of_mem_full _ hfull
  refine ⟨hc, ?_, ?_⟩
  · unfold toCsvTable
    rw [hc]
  · unfold toCsvTable
    simp [scrape_rows_length]

/-- Witness for C7: one URL, fetched successfully with non-empty markup. -/
theorem claim_C7_witness :
    columns (scrape_rows (fun _ _ => true) (fun _ _ => (5 : ℚ)) (fun _ => (5 : ℚ))
        (fun _ => "x") (fun _ => emptySoup) 3 ["u"])
        = outputFields
    ∧ toCsvTable (scrape_rows (fun _ _ => true) (fun _ _ => (5 : ℚ)) (fun _ => (5 : ℚ))
        (fun _ => "x") (fun _ => emptySoup) 3 ["u"])
        = outputFields ::
          (scrape_rows (fun _ _ => true) (fun _ _ => (5 : ℚ)) (fun _ => (5 : ℚ))
            (fun _ => "x") (fun _ => emptySoup) 3 ["u"]).map
            (fun r => outputFields.map (fun c => (rowValue r c).getD ""))
    ∧ (toCsvTable (scrape_rows (fun _ _ => true) (fun _ _ => (5 : ℚ)) (fun _ => (5 : ℚ))
        (fun _ => "x") (fun _ => emptySoup) 3 ["u"])).length
        = (readLinks ["u"]).length + 1 :=
  claim_C7 (fun _ _ => true) (fun _ _ => (5 : ℚ)) (fun _ => (5 : ℚ))
    (fun _ => "x") (fun _ => emptySoup) 3 ["u"]
    ⟨⟨some "u", none, none, none, none, none⟩, by decide⟩

/-- C7 as stated fails when every fetch fails: the header then names only
`url`, not the six fields. -/
theorem claim_C7_counterexample :
    ¬ columns (scrape_rows (fun _ _ => false) (fun _ _ => (5 : ℚ)) (fun _ => (5 : ℚ))
        (fun _ => "x") (fun _ => emptySoup) 3 ["u"]) = outputFields := by
  decide

/-- C8: once the driver has been created, every exit path of
`scrape_public_profiles` — normal completion, an unreadable input file, a
failing write, any combination of per-URL outcomes — quits the driver exactly
once. -/
theorem claim_C8 (fileResult : Except String (List String)) (writeOk : Bool)
    (outcome : Nat → Nat → Bool) (fRand : Nat → Nat → ℚ) (lRand : Nat → ℚ)
    (page : Nat → String) (soupOf : String → Soup) (maxRetries : Nat) (s : Nat) :
    (scrape_public_profiles_session true fileResult writeOk outcome fRand lRand
        page soupOf maxRetries s).2 = s + 1 := by
  unfold scrape_public_profiles_session tryExceptFinally scrape_body quitDriver
    DriverComp.pureC
  cases fileResult <;> cases writeOk <;> simp

lemma gapStateAfter_nil (st : Option (ℚ × Bool)) : gapStateAfter [] st = st := rfl

lemma gapStateAfter_cons (e : Event) (es : List Event) (st : Option (ℚ × Bool)) :
    gapStateAfter (e :: es) st = gapStateAfter es (gapStep st e) := rfl

lemma gapStateAfter_append (a b : List Event) (st : Option (ℚ × Bool)) :
    gapStateAfter (a ++ b) st = gapStateAfter b (gapStateAfter a st) :=
  List.foldl_append _ _ _ _

lemma gapsAux_append :
    ∀ (a b : List Event) (st : Option (ℚ × Bool)),
      gapsAux (a ++ b) st = gapsAux a st ++ gapsAux b (gapStateAfter a st) := by
  intro a
  induction a with
  | nil => intro b st; rfl
  | cons e a2 ih =>
    intro b st
    simp only [List.cons_append, gapsAux, List.append_eq]
    rw [ih, gapStateAfter_cons, List.append_assoc]

/-- Invariant on the gap-scan state: when no failed navigation has been seen
since the last success, the sleep accumulated so far is a full inter-success
gap, i.e. within `[2 * minD, 2 * maxD]`. -/
def stateOK (minD maxD : ℚ) : Option (ℚ × Bool) → Prop
  | none => True
  | some p => p.2 = false → 2 * minD ≤ p.1 ∧ p.1 ≤ 2 * maxD

lemma safe_get_from_gaps (minD maxD : ℚ) (url : String) (outcome : Nat → Bool)
    (rand : Nat → ℚ) (page : String) :
    ∀ (r a : Nat) (st : Option (ℚ × Bool)), stateOK minD maxD st →
      (∀ g ∈ gapsAux (safe_get_from url outcome rand page a r).1 st,
          g.2 = false → 2 * minD ≤ g.1 ∧ g.1 ≤ 2 * maxD)
      ∧ ((safe_get_from url outcome rand page a r).2 = none →
          stateOK minD maxD
            (gapStateAfter (safe_get_from url outcome rand page a r).1 st))
      ∧ (∀ html, (safe_get_from url outcome rand page a r).2 = some html →
          ∃ a2, gapStateAfter (safe_get_from url outcome rand page a r).1 st
            = some (rand a2, false)) := by
  intro r
  induction r with
  | zero =>
    intro a st hst
    refine ⟨?_, ?_, ?_⟩
    · intro g hg
      exact absurd hg (List.not_mem_nil g)
    · intro _
      exact hst
    · intro html h
      exact absurd h (by simp [safe_get_from])
  | succ r2 ih =>
    intro a st hst
    by_cases ho : outcome a = true
    · have htr : safe_get_from url outcome rand page a (r2 + 1)
          = ([Event.nav url a true, Event.sleep (rand a)], some page) := by
        unfold safe_get_from
        rw [if_pos ho]
      refine ⟨?_, ?_, ?_⟩
      · intro g hg hflag
        rw [htr] at hg
        simp only [gapsAux, gapStep, List.append_nil] at hg
        cases hcase : st with
        | none => rw [hcase] at hg; simp at hg
        | some p =>
          rw [hcase] at hg
          rw [hcase] at hst
          simp at hg
          subst hg
          exact hst hflag
      · intro hnone
        rw [htr] at hnone
        simp at hnone
      · intro html _
        refine ⟨a, ?_⟩
        rw [htr]
        simp [gapStateAfter, gapStep]
    · have ho2 : outcome a = false := by
        simpa using ho
      have htr : (safe_get_from url outcome rand page a (r2 + 1)).1
            = Event.nav url a false :: Event.sleep (2 * (a : ℚ)) ::
              (safe_get_from url outcome rand page (a + 1) r2).1
          ∧ (safe_get_from url outcome rand page a (r2 + 1)).2
            = (safe_get_from url outcome rand page (a + 1) r2).2 := by
        constructor <;>
          · conv_lhs => rw [safe_get_from, if_neg ho]
      have hst2 : stateOK minD maxD
          (gapStep (gapStep st (Event.nav url a false)) (Event.sleep (2 * (a : ℚ)))) := by
        cases st with
        | none => simp [gapStep, stateOK]
        | some p =>
          simp only [gapStep, Option.map_some']
          intro hcontra
          simp at hcontra
      have hrec := ih (a + 1)
        (gapStep (gapStep st (Event.nav url a false)) (Event.sleep (2 * (a : ℚ)))) hst2
      refine ⟨?_, ?_, ?_⟩
      · intro g hg hflag
        rw [htr.1] at hg
        simp only [gapsAux, List.nil_append] at hg
        have hg2 : g ∈ gapsAux (safe_get_from url outcome rand page (a + 1) r2).1
            (gapStep (gapStep st (Event.nav url a false)) (Event.sleep (2 * (a : ℚ)))) := by
          simpa using hg
        exact hrec.1 g hg2 hflag
      · intro hnone
        rw [htr.1]
        rw [htr.2] at hnone
        rw [gapStateAfter_cons, gapStateAfter_cons]
        exact hrec.2.1 hnone
      · intro html hsome
        rw [htr.2] at hsome
        rw [htr.1, gapStateAfter_cons, gapStateAfter_cons]
        exact hrec.2.2 html hsome

lemma scrape_go_gaps (minD maxD : ℚ) (outcome : Nat → Nat → Bool)
    (fRand : Nat → Nat → ℚ) (lRand : Nat → ℚ) (page : Nat → String)
    (soupOf : String → Soup) (maxRetries : Nat)
    (hf : ∀ i a, minD ≤ fRand i a ∧ fRand i a ≤ maxD)
    (hl : ∀ i, minD ≤ lRand i ∧ lRand i ≤ maxD)
    (hp : ∀ i, page i ≠ "") :
    ∀ (links : List String) (i : Nat) (st : Option (ℚ × Bool)),
      stateOK minD maxD st →
      (∀ g ∈ gapsAux (scrape_go outcome fRand lRand page soupOf maxRetries links i).1 st,
          g.2 = false → 2 * minD ≤ g.1 ∧ g.1 ≤ 2 * maxD)
      ∧ stateOK minD maxD
          (gapStateAfter (scrape_go outcome fRand lRand page soupOf maxRetries links i).1 st) := by
  intro links
  induction links with
  | nil =>
    intro i st hst
    exact ⟨fun g hg => absurd hg (List.not_mem_nil g), hst⟩
  | cons link rest ih =>
    intro i st hst
    have hsg := safe_get_from_gaps minD maxD link (outcome i) (fRand i) (page i)
      maxRetries 1 st hst
    unfold scrape_go
    cases hres : (safe_get link (outcome i) (fRand i) (page i) maxRetries).2 with
    | none =>
      simp only [safe_get] at hres
      simp only [safe_get, hres]
      have hafter : stateOK minD maxD
          (gapStateAfter (safe_get_from link (outcome i) (fRand i) (page i) 1 maxRetries).1 st) :=
        hsg.2.1 hres
      have hrec := ih (i + 1)
        (gapStateAfter (safe_get_from link (outcome i) (fRand i) (page i) 1 maxRetries).1 st)
        hafter
      constructor
      · intro g hg hflag
        rw [gapsAux_append] at hg
        rcases List.mem_append.mp hg with h | h
        · exact hsg.1 g h hflag
        · exact hrec.1 g h hflag
      · rw [gapStateAfter_append]
        exact hrec.2
    | some html =>
      simp only [safe_get] at hres
      have hhtml : html = page i :=
        safe_get_from_page link (outcome i) (fRand i) (page i) maxRetries 1 html hres
      have hne : ¬ html = "" := by
        rw [hhtml]; exact hp i
      simp only [safe_get, hres, hne, if_neg, ite_false]
      obtain ⟨a2, hst2⟩ := hsg.2.2 html hres
      constructor
      · intro g hg hflag
        rw [List.append_assoc, List.singleton_append, gapsAux_append] at hg
        rcases List.mem_append.mp hg with h | h
        · exact hsg.1 g h hflag
        · rw [hst2] at h
          simp only [gapsAux, gapStep, List.nil_append, Option.map_some'] at h
          have hstok : stateOK minD maxD (some (fRand i a2 + lRand i, false)) := by
            intro _
            constructor
            · have h1 := (hf i a2).1
              have h2 := (hl i).1
              calc 2 * minD = minD + minD := by ring
                _ ≤ fRand i a2 + lRand i := add_le_add h1 h2
            · have h1 := (hf i a2).2
              have h2 := (hl i).2
              calc fRand i a2 + lRand i ≤ maxD + maxD := add_le_add h1 h2
                _ = 2 * maxD := by ring
          have hrec := ih (i + 1) (some (fRand i a2 + lRand i, false)) hstok
          exact hrec.1 g h hflag
      · rw [List.append_assoc, List.singleton_append, gapStateAfter_append,
          gapStateAfter_cons, hst2]
        simp only [gapStep, Option.map_some']
        have hstok : stateOK minD maxD (some (fRand i a2 + lRand i, false)) := by
          intro _
          constructor
          · have h1 := (hf i a2).1
            have h2 := (hl i).1
            calc 2 * minD = minD + minD := by ring
              _ ≤ fRand i a2 + lRand i := add_le_add h1 h2
          · have h1 := (hf i a2).2
            have h2 := (hl i).2
            calc fRand i a2 + lRand i ≤ maxD + maxD := add_le_add h1 h2
              _ = 2 * maxD := by ring
        exact (ih (i + 1) (some (fRand i a2 + lRand i, false)) hstok).2

lemma endsOk_cons (e : Event) (xs : List Event) (hne : xs ≠ []) :
    endsOk (e :: xs) = endsOk xs := by
  rcases xs with _ | ⟨y, ys⟩
  · exact absurd rfl hne
  · unfold endsOk
    rw [List.getLast?_cons_cons]

lemma backoffOk_append :
    ∀ (xs ys : List Event), backoffOk xs = true → backoffOk ys = true →
      endsOk xs = true → backoffOk (xs ++ ys) = true := by
  intro xs
  induction xs with
  | nil =>
    intro ys _ hy _
    simpa using hy
  | cons e xs2 ih =>
    intro ys hx hy hend
    cases e with
    | sleep d =>
      rcases xs2 with _ | ⟨z, zs⟩
      · simp only [backoffOk, List.nil_append, List.cons_append]
        simpa [backoffOk] using hy
      · rw [List.cons_append]
        have hx2 : backoffOk (z :: zs) = true := by simpa [backoffOk] using hx
        have hend2 : endsOk (z :: zs) = true := by
          rw [← endsOk_cons (Event.sleep d) (z :: zs) (by simp)]
          exact hend
        have := ih ys hx2 hy hend2
        simpa [backoffOk] using this
    | nav u a success =>
      cases success with
      | true =>
        rcases xs2 with _ | ⟨z, zs⟩
        · simp only [List.cons_append, List.nil_append]
          simpa [backoffOk] using hy
        · rw [List.cons_append]
          have hx2 : backoffOk (z :: zs) = true := by simpa [backoffOk] using hx
          have hend2 : endsOk (z :: zs) = true := by
            rw [← endsOk_cons (Event.nav u a true) (z :: zs) (by simp)]
            exact hend
          have := ih ys hx2 hy hend2
          simpa [backoffOk] using this
      | false =>
        rcases xs2 with _ | ⟨z, zs⟩
        · exact absurd hx (by simp [backoffOk])
        · cases z with
          | nav u2 a2 s2 =>
            exact absurd hx (by simp [backoffOk])
          | sleep d =>
            have hx2 : decide ((2 * (a : ℚ)) ≤ d) = true
                ∧ backoffOk (Event.sleep d :: zs) = true := by
              simpa [backoffOk] using hx
            have hend2 : endsOk (Event.sleep d :: zs) = true := by
              rw [← endsOk_cons (Event.nav u a false) (Event.sleep d :: zs) (by simp)]
              exact hend
            have hrec := ih ys hx2.2 hy hend2
            rw [List.cons_append, List.cons_append]
            have hrec2 : backoffOk (Event.sleep d :: (zs ++ ys)) = true := by
              simpa [backoffOk] using hrec
            have hzs : backoffOk (zs ++ ys) = true := by
              simpa [backoffOk] using hrec2
            simp [backoffOk, hx2.1, hzs]

lemma safe_get_from_backoff (url : String) (outcome : Nat → Bool)
    (rand : Nat → ℚ) (page : String) :
    ∀ (r a : Nat),
      backoffOk (safe_get_from url outcome rand page a r).1 = true
      ∧ endsOk (safe_get_from url outcome rand page a r).1 = true := by
  intro r
  induction r with
  | zero => intro a; exact ⟨rfl, rfl⟩
  | succ r2 ih =>
    intro a
    by_cases ho : outcome a = true
    · have htr : (safe_get_from url outcome rand page a (r2 + 1)).1
          = [Event.nav url a true, Event.sleep (rand a)] := by
        conv_lhs => rw [safe_get_from, if_pos ho]
      rw [htr]
      exact ⟨rfl, rfl⟩
    · have htr : (safe_get_from url outcome rand page a (r2 + 1)).1
          = Event.nav url a false :: Event.sleep (2 * (a : ℚ)) ::
            (safe_get_from url outcome rand page (a + 1) r2).1 := by
        conv_lhs => rw [safe_get_from, if_neg ho]
      rw [htr]
      have hb := (ih (a + 1)).1
      have he := (ih (a + 1)).2
      constructor
      · have hrest : backoffOk (Event.sleep (2 * (a : ℚ)) ::
            (safe_get_from url outcome rand page (a + 1) r2).1) = true := by
          simpa [backoffOk] using hb
        simp [backoffOk, hrest, hb]
      · rcases hrec : (safe_get_from url outcome rand page (a + 1) r2).1 with _ | ⟨z, zs⟩
        · rfl
        · rw [endsOk_cons _ _ (by simp), endsOk_cons _ _ (by simp)]
          rw [hrec] at he
          exact he

lemma scrape_go_backoff (outcome : Nat → Nat → Bool) (fRand : Nat → Nat → ℚ)
    (lRand : Nat → ℚ) (page : Nat → String) (soupOf : String → Soup)
    (maxRetries : Nat) :
    ∀ (links : List String) (i : Nat),
      backoffOk (scrape_go outcome fRand lRand page soupOf maxRetries links i).1 = true := by
  intro links
  induction links with
  | nil => intro i; rfl
  | cons link rest ih =>
    intro i
    unfold scrape_go
    have hsb := safe_get_from_backoff link (outcome i) (fRand i) (page i) maxRetries 1
    cases hres : (safe_get link (outcome i) (fRand i) (page i) maxRetries).2 with
    | none =>
      simp only [safe_get] at hres
      simp only [safe_get, hres]
      exact backoffOk_append _ _ hsb.1 (ih (i + 1)) hsb.2
    | some html =>
      simp only [safe_get] at hres
      by_cases hh : html = ""
      · simp only [safe_get, hres, hh, ite_true]
        exact backoffOk_append _ _ hsb.1 (ih (i + 1)) hsb.2
      · simp only [safe_get, hres, hh, ite_false]
        rw [List.append_assoc, List.singleton_append]
        refine backoffOk_append _ _ hsb.1 ?_ hsb.2
        simpa [backoffOk] using ih (i + 1)

/-- The C3 claim over one trace: every inter-success sleep total lies in
`[minD, maxD]`, and every failed navigation at attempt `a` is followed by a
sleep of at least `2 * a` seconds. -/
def c3ClaimAt (minD maxD : ℚ) (tr : List Event) : Prop :=
  (∀ g ∈ gapsBetweenSuccesses tr, minD ≤ g.1 ∧ g.1 ≤ maxD)
  ∧ backoffOk tr = true

/-- C3 amended: because the source paces twice (inside `safe_get` and again in
the batch loop), in a run whose successful navigations all return non-empty
markup and whose uniform draws lie in `[minD, maxD]`, the total sleep between
consecutive successful navigations with no failed attempt between them lies
in `[2 * minD, 2 * maxD]`; and after the `a`-th failed navigation the fetcher
sleeps at least `2 * a` seconds before the next attempt. -/
theorem claim_C3 (minD maxD : ℚ) (outcome : Nat → Nat → Bool)
    (fRand : Nat → Nat → ℚ) (lRand : Nat → ℚ) (page : Nat → String)
    (soupOf : String → Soup) (maxRetries : Nat) (fileLines : List String)
    (hf : ∀ i a, minD ≤ fRand i a ∧ fRand i a ≤ maxD)
    (hl : ∀ i, minD ≤ lRand i ∧ lRand i ≤ maxD)
    (hp : ∀ i, page i ≠ "") :
    (∀ g ∈ gapsBetweenSuccesses
        (scrape_trace outcome fRand lRand page soupOf maxRetries fileLines),
        g.2 = false → 2 * minD ≤ g.1 ∧ g.1 ≤ 2 * maxD)
    ∧ backoffOk (scrape_trace outcome fRand lRand page soupOf maxRetries fileLines)
        = true := by
  constructor
  · intro g hg hflag
    have h := scrape_go_gaps minD maxD outcome fRand lRand page soupOf maxRetries
      hf hl hp (readLinks fileLines) 0 none trivial
    exact h.1 g hg hflag
  · exact scrape_go_backoff outcome fRand lRand page soupOf maxRetries
      (readLinks fileLines) 0

/-- Witness for C3 at a concrete two-URL run with all draws equal to 5 and
bounds 4 and 8: the single inter-success gap of 10 seconds obeys the doubled
bounds and the backoff check holds. -/
theorem claim_C3_witness :
    (2 * (4 : ℚ) ≤ 10 ∧ (10 : ℚ) ≤ 2 * 8)
    ∧ backoffOk (scrape_trace (fun _ _ => true) (fun _ _ => (5 : ℚ)) (fun _ => (5 : ℚ))
        (fun _ => "x") (fun _ => emptySoup) 3 ["a", "b"]) = true := by
  have h := claim_C3 4 8 (fun _ _ => true) (fun _ _ => (5 : ℚ)) (fun _ => (5 : ℚ))
    (fun _ => "x") (fun _ => emptySoup) 3 ["a", "b"]
    (fun _ _ => by norm_num) (fun _ => by norm_num) (fun _ => by simp)
  refine ⟨?_, h.2⟩
  have htr : scrape_trace (fun _ _ => true) (fun _ _ => (5 : ℚ)) (fun _ => (5 : ℚ))
      (fun _ => "x") (fun _ => emptySoup) 3 ["a", "b"]
      = [Event.nav "a" 1 true, Event.sleep 5, Event.sleep 5,
         Event.nav "b" 1 true, Event.sleep 5, Event.sleep 5] := by
    decide
  have hmem : ((10 : ℚ), false) ∈ gapsBetweenSuccesses
      (scrape_trace (fun _ _ => true) (fun _ _ => (5 : ℚ)) (fun _ => (5 : ℚ))
        (fun _ => "x") (fun _ => emptySoup) 3 ["a", "b"]) := by
    rw [htr]
    simp [gapsBetweenSuccesses, gapsAux, gapStep]
    norm_num
  exact h.1 (10, false) hmem rfl

/-- C3 as stated fails: with both pacing points active, an error-free run with
all draws equal to 5 sleeps 10 seconds between consecutive successful
navigations, outside `[4, 8]`. -/
theorem claim_C3_counterexample :
    ¬ c3ClaimAt 4 8 (scrape_trace (fun _ _ => true) (fun _ _ => (5 : ℚ))
        (fun _ => (5 : ℚ)) (fun _ => "x") (fun _ => emptySoup) 3 ["a", "b"]) := by
  intro h
  have htr : scrape_trace (fun _ _ => true) (fun _ _ => (5 : ℚ)) (fun _ => (5 : ℚ))
      (fun _ => "x") (fun _ => emptySoup) 3 ["a", "b"]
      = [Event.nav "a" 1 true, Event.sleep 5, Event.sleep 5,
         Event.nav "b" 1 true, Event.sleep 5, Event.sleep 5] := by
    decide
  rw [c3ClaimAt, htr] at h
  have hmem : ((10 : ℚ), false) ∈ gapsBetweenSuccesses
      [Event.nav "a" 1 true, Event.sleep 5, Event.sleep 5,
       Event.nav "b" 1 true, Event.sleep 5, Event.sleep 5] := by
    simp [gapsBetweenSuccesses, gapsAux, gapStep]
    norm_num
  have hb := (h.1 (10, false) hmem).2
  norm_num at hb
